import Mathlib

/-!
Verification of the `basic.super_copy` rig component
(src/rigify/rigs/basic/super_copy.py) against its specification.

The component's own staged pipeline (generate_bones, parent_bones,
configure_bones, rig_bones, generate_widgets) is embedded directly from the
source file.  The host primitives it calls (the bone store, the constraint
store, the naming utilities and the relink-constraints mixin) are repository
code that is not part of the sources here, so they are modelled from the
specification's contracts; each such definition carries a doc comment saying
so.  The armature is a list of bones; a bone owns an ordered constraint
stack.  Python attribute access on the per-rig bone set (`bones.ctrl`,
`bones.deform`) is modelled in the `Option` monad: reading an unregistered
role yields `none` for the whole stage, mirroring an `AttributeError`.
-/

set_option autoImplicit false

namespace SuperCopy

/-- An entry of a bone's constraint stack: a name (carrying the `CTRL:` /
`DEF:` routing convention), a type tag and a target bone name.  Type-specific
parameters are opaque and omitted. -/
structure Constraint where
  name : String
  ctype : String
  target : String
deriving DecidableEq, Repr

/-- A bone of the armature: unique name, optional parent, connected-parenting
flag, bendy-bone flag, opaque geometry, opaque display/editing properties and
an ordered constraint stack. -/
structure Bone where
  name : String
  parent : Option String
  use_connect : Bool
  bbone : Bool
  geom : String
  props : String
  constraints : List Constraint
deriving DecidableEq, Repr

/-- The armature's bone store: bones in creation order, addressed by name. -/
abbrev Armature := List Bone

/-- Look a bone up by name (first match). -/
def findBone (arm : Armature) (n : String) : Option Bone :=
  arm.find? (fun b => b.name == n)

/-- Apply `f` to the bone named `n` (to every bone of that name; names are
unique in every armature we consider). -/
def updateBone (arm : Armature) (n : String) (f : Bone → Bone) : Armature :=
  arm.map (fun b => if b.name = n then f b else b)

/-- The constraint stack of the bone named `n` (empty if absent). -/
def constraintsOf (arm : Armature) (n : String) : List Constraint :=
  match findBone arm n with
  | some b => b.constraints
  | none => []

/-- The parent of the bone named `n` (none if absent or a root). -/
def parentOf (arm : Armature) (n : String) : Option String :=
  match findBone arm n with
  | some b => b.parent
  | none => none

/-- The opaque geometry of the bone named `n` (empty if absent). -/
def geomOf (arm : Armature) (n : String) : String :=
  match findBone arm n with
  | some b => b.geom
  | none => ""

/-- The opaque display/editing properties of the bone named `n`. -/
def propsOf (arm : Armature) (n : String) : String :=
  match findBone arm n with
  | some b => b.props
  | none => ""

/-- Exact prefix match on strings, by their character lists. -/
def strPrfx (p s : String) : Bool :=
  p.data.isPrefixOf s.data

/-- Whether the constraint's name carries the given name prefix. -/
def hasPrfx (p : String) (c : Constraint) : Bool :=
  strPrfx p c.name

/-- Modelled from the spec: naming utility `strip_org` (rigify/utils/naming.py,
not among the sources) — strips the internal organizational naming decoration,
the `ORG-` prefix, from a bone name when present. -/
def strip_org (n : String) : String :=
  if strPrfx "ORG-" n then n.drop 4 else n

/-- Modelled from the spec: naming utility `make_deformer_name`
(rigify/utils/naming.py, not among the sources) — the deterministic
deformer-naming transform, prepending the `DEF-` decoration. -/
def make_deformer_name (n : String) : String :=
  "DEF-" ++ n

/-- Modelled from the spec: bone store primitive
`copy_bone(source, new_name, parent_flag, bendy_flag) -> bone_name`
(BaseRig utility, not among the sources) — creates a geometric duplicate of
the source bone under the new name, inheriting the source's parent when the
parent flag is set, with the given bendy-bone flag and an empty constraint
stack, and returns the new bone's name. -/
def copy_bone (arm : Armature) (src newName : String)
    (parentFlag bboneFlag : Bool) : Armature × String :=
  (arm ++ [⟨newName, if parentFlag then parentOf arm src else none, false,
           bboneFlag, geomOf arm src, "", []⟩], newName)

/-- Modelled from the spec: bone store primitive
`set_bone_parent(child, parent, connect_flag)` (BaseRig utility, not among
the sources) — sets the child's parent edge and its connected-parenting
flag. -/
def set_bone_parent (arm : Armature) (child par : String)
    (useConnect : Bool) : Armature :=
  updateBone arm child (fun b => { b with parent := some par, use_connect := useConnect })

/-- Modelled from the spec: bone store primitive
`copy_bone_properties(src, dst)` (BaseRig utility, not among the sources) —
copies the source bone's display/editing properties onto the destination
verbatim. -/
def copy_bone_properties (arm : Armature) (src dst : String) : Armature :=
  updateBone arm dst (fun b => { b with props := propsOf arm src })

/-- Modelled from the spec: constraint store primitive
`add_constraint(bone, type, target, insert_index)` (BaseRig's
`make_constraint`, not among the sources) — creates one new constraint of the
given type and target on the bone and places it at the given stack index. -/
def make_constraint (arm : Armature) (bone ctype target : String)
    (insertIndex : Nat) : Armature :=
  updateBone arm bone (fun b =>
    { b with constraints :=
        b.constraints.take insertIndex ++
          ⟨"", ctype, target⟩ :: b.constraints.drop insertIndex })

/-- Modelled from the spec: relink mixin primitive
`relink_bone_constraints(bone)` (raw_copy.py mixin, not among the sources) —
rewrites the targets of the bone's constraints through the armature-wide
rename map `r`, leaving the constraint list, its order and its ownership
unchanged; no entries are added or removed. -/
def relink_bone_constraints (r : String → String) (arm : Armature)
    (bone : String) : Armature :=
  updateBone arm bone (fun b =>
    { b with constraints := b.constraints.map (fun c => { c with target := r c.target }) })

/-- Modelled from the spec: relink mixin primitive
`relink_move_constraints(bone, dest, prefix)` (raw_copy.py mixin, not among
the sources) — moves every constraint on `bone` whose name carries the given
name prefix to `dest`, appending them at the end of `dest`'s stack in their
original relative order.  The names of the moved constraints are retained
(the spec leaves stripping versus retaining to host convention). -/
def relink_move_constraints (arm : Armature) (bone dest prfx : String) :
    Armature :=
  updateBone
    (updateBone arm bone (fun b =>
      { b with constraints := b.constraints.filter (fun c => !(hasPrfx prfx c)) }))
    dest
    (fun b =>
      { b with constraints :=
          b.constraints ++ (constraintsOf arm bone).filter (hasPrfx prfx) })

/-- Python truthiness of the optional bone name returned by the parent
relink step: a missing result and the empty string are both falsy. -/
def truthyName : Option String → Bool
  | some s => !(s == "")
  | none => false

/-- Modelled from the spec: relink mixin primitive
`relink_bone_parent(bone) -> optional bone name` (raw_copy.py mixin, not
among the sources) — resolves the bone's new parent per the armature-wide
relink rules (supplied here as the oracle `rp`), applies it as the bone's
parent, leaving the bone a root when the result is empty or missing, and
returns the resolved result. -/
def relink_bone_parent (rp : Option String) (arm : Armature) (bone : String) :
    Armature × Option String :=
  (updateBone arm bone (fun b =>
    { b with parent := if truthyName rp then rp else none }), rp)

/-- The rig parameters declared by `Rig.add_parameters` in super_copy.py. -/
structure Params where
  make_control : Bool
  make_widget : Bool
  super_copy_widget_type : String
  make_deform : Bool
deriving DecidableEq, Repr

/-- The per-instance bone set: the logical roles `org`, `ctrl`, `deform`
mapped to bone names; `ctrl` and `deform` are registered only when the
corresponding stage creates them. -/
structure BoneSet where
  org : String
  ctrl : Option String
  deform : Option String
deriving DecidableEq, Repr

/-- A widget request issued by the widget stage: either a registered catalog
widget of a given type bound to a bone, or the library's default bone
widget. -/
inductive WidgetCall where
  | registered : String → String → WidgetCall
  | boneDefault : String → WidgetCall
deriving DecidableEq, Repr

/-- Stage `Rig.generate_bones` of super_copy.py: if `make_control`, duplicate
org under the stripped org name with parent inheritance; if `make_deform`,
duplicate org under the deformer name with bendy-bone segmentation; register
the created names under the `ctrl` / `deform` roles. -/
def generate_bones (p : Params) (org : String) (arm : Armature) :
    Armature × BoneSet :=
  let orgName := strip_org org
  let step1 :=
    if p.make_control then
      let res := copy_bone arm org orgName true false
      (res.1, some res.2)
    else (arm, none)
  let step2 :=
    if p.make_deform then
      let res := copy_bone step1.1 org (make_deformer_name orgName) false true
      (res.1, some res.2)
    else (step1.1, none)
  (step2.1, ⟨org, step1.2, step2.2⟩)

/-- Stage `Rig.parent_bones` of super_copy.py: parent the deform bone to org
with connected parenting disabled, relink org's own parent, and if a control
exists and a truthy new parent was resolved, parent the control to it.  Role
reads are in the `Option` monad (a missing role is an attribute error). -/
def parent_bones (p : Params) (rp : Option String) (bs : BoneSet)
    (arm : Armature) : Option Armature :=
  (if p.make_deform then
      bs.deform.bind fun d => some (set_bone_parent arm d bs.org false)
    else some arm).bind fun arm1 =>
  let res := relink_bone_parent rp arm1 bs.org
  if p.make_control && truthyName res.2 then
    bs.ctrl.bind fun c =>
      some (set_bone_parent res.1 c (res.2.getD "") false)
  else some res.1

/-- Stage `Rig.configure_bones` of super_copy.py: when a control exists, copy
org's bone properties onto it. -/
def configure_bones (p : Params) (bs : BoneSet) (arm : Armature) :
    Option Armature :=
  if p.make_control then
    bs.ctrl.bind fun c => some (copy_bone_properties arm bs.org c)
  else some arm

/-- Stage `Rig.rig_bones` of super_copy.py: relink org's constraint targets;
if a control exists, move the `CTRL:`-prefixed constraints to it and insert a
copy-transforms constraint targeting the control at index 0 of org's stack;
if a deform exists, move the `DEF:`-prefixed constraints to it. -/
def rig_bones (p : Params) (r : String → String) (bs : BoneSet)
    (arm : Armature) : Option Armature :=
  let arm1 := relink_bone_constraints r arm bs.org
  (if p.make_control then
      bs.ctrl.bind fun c =>
        let arm2 := relink_move_constraints arm1 bs.org c "CTRL:"
        some (make_constraint arm2 bs.org "COPY_TRANSFORMS" c 0)
    else some arm1).bind fun arm3 =>
  if p.make_deform then
    bs.deform.bind fun d => some (relink_move_constraints arm3 bs.org d "DEF:")
  else some arm3

/-- Stage `Rig.generate_widgets` of super_copy.py: only when a control
exists, request a registered widget of type `super_copy_widget_type`
(defaulting to "circle" when that string is empty) if `make_widget`, and the
default bone widget otherwise. -/
def generate_widgets (p : Params) (bs : BoneSet) : Option (Option WidgetCall) :=
  if p.make_control then
    bs.ctrl.bind fun c =>
      if p.make_widget then
        some (some (WidgetCall.registered c
          (if p.super_copy_widget_type == "" then "circle"
           else p.super_copy_widget_type)))
      else
        some (some (WidgetCall.boneDefault c))
  else some none

/-- The observable outcome of one generation run: the final armature, the
registered bone set and the widget request (if any). -/
structure RigResult where
  arm : Armature
  bs : BoneSet
  widget : Option WidgetCall
deriving DecidableEq, Repr

/-- The full staged pipeline of the component, in the host's fixed order:
generate bones, parent bones, configure bones, rig constraints, generate
widgets.  `r` is the armature-wide constraint-target rename map and `rp` the
parent-relink oracle, both contracts of the external relink mixin. -/
def runRig (p : Params) (r : String → String) (rp : Option String)
    (org : String) (arm : Armature) : Option RigResult :=
  let g := generate_bones p org arm
  (parent_bones p rp g.2 g.1).bind fun arm1 =>
  (configure_bones p g.2 arm1).bind fun arm2 =>
  (rig_bones p r g.2 arm2).bind fun arm3 =>
  (generate_widgets p g.2).bind fun w =>
  some ⟨arm3, g.2, w⟩

/-- Specification-side helper: a constraint list with every target rewritten
through the armature-wide rename map, names and order untouched. -/
def relinkTargets (r : String → String) (cs : List Constraint) : List Constraint :=
  cs.map (fun c => { c with target := r c.target })

/-- Specification-side description of the residual constraint stack left on
org by the rig stage, not counting the synthetic copy-transforms entry: the
original stack, targets rewritten, minus the `CTRL:`-prefixed entries when a
control exists and minus the `DEF:`-prefixed entries when a deform exists. -/
def orgResidual (p : Params) (r : String → String) (cs : List Constraint) :
    List Constraint :=
  let cs1 := relinkTargets r cs
  let cs2 := if p.make_control then cs1.filter (fun c => !(hasPrfx "CTRL:" c)) else cs1
  if p.make_deform then cs2.filter (fun c => !(hasPrfx "DEF:" c)) else cs2

/-! ### Concrete fixtures used by the witnesses -/

/-- A concrete org bone with a mixed constraint stack. -/
def obW : Bone :=
  ⟨"ORG-Bone", some "Root", false, false, "G", "P",
   [⟨"CTRL:a", "T1", "x"⟩, ⟨"plain", "T2", "y"⟩,
    ⟨"DEF:b", "T3", "z"⟩, ⟨"CTRL:c", "T4", "w"⟩]⟩

/-- A one-bone armature holding only the org bone. -/
def armW : Armature := [obW]

/-- Parameters with every feature enabled. -/
def pTT : Params := ⟨true, true, "", true⟩

/-- Parameters with control disabled and deform enabled. -/
def pFT : Params := ⟨false, true, "sq", true⟩

/-- Parameters with control enabled and deform disabled, no catalog widget. -/
def pTF : Params := ⟨true, false, "", false⟩

/-! ### Lookup and update lemmas -/

theorem findBone_nil (n : String) : findBone [] n = none := rfl

theorem findBone_cons (b : Bone) (arm : Armature) (n : String) :
    findBone (b :: arm) n = if b.name = n then some b else findBone arm n := by
  by_cases h : b.name = n <;> simp [findBone, h]

theorem findBone_append (a1 a2 : Armature) (n : String) :
    findBone (a1 ++ a2) n = (findBone a1 n).or (findBone a2 n) := by
  simp [findBone]

theorem findBone_updateBone (arm : Armature) (n m : String) (f : Bone → Bone)
    (hf : ∀ b, (f b).name = b.name) :
    findBone (updateBone arm n f) m =
      if n = m then (findBone arm m).map f else findBone arm m := by
  induction arm with
  | nil => by_cases h : n = m <;> simp [updateBone, findBone, h]
  | cons b t ih =>
    simp only [updateBone, List.map_cons] at ih ⊢
    by_cases hbn : b.name = n
    · by_cases hnm : n = m
      · subst hnm
        simp [findBone_cons, hbn, hf b, ih]
      · have hbm : b.name ≠ m := hbn ▸ hnm
        have hfm : (f b).name ≠ m := by rw [hf b]; exact hbm
        simp [findBone_cons, hbn, hfm, hbm, hnm, ih]
    · by_cases hbm : b.name = m
      · have hnm : n ≠ m := fun h => hbn (hbm.trans h.symm)
        have hmn : m ≠ n := fun h => hnm h.symm
        simp [findBone_cons, hbn, hbm, hnm, hmn]
      · by_cases hnm : n = m
        · subst hnm
          simp [findBone_cons, hbn, hbm, ih]
        · simp [findBone_cons, hbn, hbm, hnm, ih]

theorem constraintsOf_eq (arm : Armature) (n : String) (b : Bone)
    (h : findBone arm n = some b) : constraintsOf arm n = b.constraints := by
  simp [constraintsOf, h]

theorem parentOf_eq (arm : Armature) (n : String) (b : Bone)
    (h : findBone arm n = some b) : parentOf arm n = b.parent := by
  simp [parentOf, h]

/-! ### The effect of each host primitive on lookups -/

theorem findBone_set_bone_parent (arm : Armature) (c pn : String) (u : Bool)
    (m : String) :
    findBone (set_bone_parent arm c pn u) m =
      if c = m then
        (findBone arm m).map
          (fun b => { b with parent := some pn, use_connect := u })
      else findBone arm m :=
  findBone_updateBone arm c m _ (fun _ => rfl)

theorem findBone_copy_bone_properties (arm : Armature) (src dst m : String) :
    findBone (copy_bone_properties arm src dst) m =
      if dst = m then
        (findBone arm m).map (fun b => { b with props := propsOf arm src })
      else findBone arm m :=
  findBone_updateBone arm dst m _ (fun _ => rfl)

theorem findBone_make_constraint (arm : Armature) (bone ctype target : String)
    (i : Nat) (m : String) :
    findBone (make_constraint arm bone ctype target i) m =
      if bone = m then
        (findBone arm m).map (fun b =>
          { b with constraints :=
              b.constraints.take i ++ ⟨"", ctype, target⟩ :: b.constraints.drop i })
      else findBone arm m :=
  findBone_updateBone arm bone m _ (fun _ => rfl)

theorem findBone_relink_bone_constraints (r : String → String) (arm : Armature)
    (bone m : String) :
    findBone (relink_bone_constraints r arm bone) m =
      if bone = m then
        (findBone arm m).map (fun b =>
          { b with constraints :=
              b.constraints.map (fun c => { c with target := r c.target }) })
      else findBone arm m :=
  findBone_updateBone arm bone m _ (fun _ => rfl)

theorem findBone_relink_move_constraints (arm : Armature) (og de px m : String)
    (hne : og ≠ de) :
    findBone (relink_move_constraints arm og de px) m =
      if og = m then
        (findBone arm m).map (fun b =>
          { b with constraints := b.constraints.filter (fun c => !(hasPrfx px c)) })
      else if de = m then
        (findBone arm m).map (fun b =>
          { b with constraints :=
              b.constraints ++ (constraintsOf arm og).filter (hasPrfx px) })
      else findBone arm m := by
  unfold relink_move_constraints
  rw [findBone_updateBone
        (updateBone arm og fun b =>
          { b with constraints := b.constraints.filter (fun c => !(hasPrfx px c)) })
        de m
        (fun b =>
          { b with constraints :=
              b.constraints ++ (constraintsOf arm og).filter (hasPrfx px) })
        (fun _ => rfl),
      findBone_updateBone arm og m
        (fun b =>
          { b with constraints := b.constraints.filter (fun c => !(hasPrfx px c)) })
        (fun _ => rfl)]
  by_cases h1 : og = m
  · have h2 : de ≠ m := fun h => hne (h1.trans h.symm)
    simp [h1, h2]
  · by_cases h2 : de = m <;> simp [h1, h2]

theorem findBone_relink_bone_parent (rp : Option String) (arm : Armature)
    (bone m : String) :
    findBone (relink_bone_parent rp arm bone).1 m =
      if bone = m then
        (findBone arm m).map (fun b =>
          { b with parent := if truthyName rp then rp else none })
      else findBone arm m :=
  findBone_updateBone arm bone m _ (fun _ => rfl)

theorem relink_bone_parent_snd (rp : Option String) (arm : Armature)
    (bone : String) : (relink_bone_parent rp arm bone).2 = rp := rfl

theorem copy_bone_snd (arm : Armature) (src nn : String) (pf bf : Bool) :
    (copy_bone arm src nn pf bf).2 = nn := rfl

theorem findBone_copy_bone (arm : Armature) (src nn : String)
    (pf bf : Bool) (m : String) :
    findBone (copy_bone arm src nn pf bf).1 m =
      (findBone arm m).or
        (if nn = m then
          some ⟨nn, if pf then parentOf arm src else none, false, bf,
                geomOf arm src, "", []⟩
         else none) := by
  by_cases h : nn = m <;>
    simp [copy_bone, findBone_append, findBone_cons, findBone_nil, h]

/-! ### Name prefixes -/

theorem prfx_head_ne (a b : Char) (p q s : List Char) (hab : a ≠ b)
    (h : (a :: p).isPrefixOf s = true) : (b :: q).isPrefixOf s = false := by
  rw [List.isPrefixOf_iff_prefix] at h
  rw [Bool.eq_false_iff]
  intro h2
  rw [List.isPrefixOf_iff_prefix] at h2
  obtain ⟨t1, e1⟩ := h
  obtain ⟨t2, e2⟩ := h2
  rw [← e2] at e1
  have : a = b := by
    have h3 := congrArg List.head? e1
    simpa using h3
  exact hab this

theorem ctrl_not_def (c : Constraint) (h : hasPrfx "CTRL:" c = true) :
    hasPrfx "DEF:" c = false := by
  rw [hasPrfx, strPrfx] at h ⊢
  exact prfx_head_ne 'C' 'D' _ _ _ (by decide) h

theorem def_not_ctrl (c : Constraint) (h : hasPrfx "DEF:" c = true) :
    hasPrfx "CTRL:" c = false := by
  rw [hasPrfx, strPrfx] at h ⊢
  exact prfx_head_ne 'D' 'C' _ _ _ (by decide) h

theorem hasPrfx_synth_ctrl (ty tg : String) :
    hasPrfx "CTRL:" ⟨"", ty, tg⟩ = false := rfl

theorem hasPrfx_synth_def (ty tg : String) :
    hasPrfx "DEF:" ⟨"", ty, tg⟩ = false := rfl

theorem hasPrfx_relinkTarget (px : String) (r : String → String)
    (c : Constraint) :
    hasPrfx px { c with target := r c.target } = hasPrfx px c := rfl

theorem filter_def_and_not_ctrl (l : List Constraint) :
    (l.filter fun c => hasPrfx "DEF:" c && !(hasPrfx "CTRL:" c)) =
      l.filter (hasPrfx "DEF:") := by
  apply List.filter_congr
  intro c _
  cases h : hasPrfx "DEF:" c with
  | true => simp [h, def_not_ctrl c h]
  | false => simp [h]

theorem filter_def_after_not_ctrl (l : List Constraint) :
    (l.filter (fun c => !(hasPrfx "CTRL:" c))).filter (hasPrfx "DEF:") =
      l.filter (hasPrfx "DEF:") := by
  induction l with
  | nil => rfl
  | cons c t ih =>
    cases h : hasPrfx "CTRL:" c with
    | true =>
      have hd := ctrl_not_def c h
      simp [h, hd, ih]
    | false =>
      cases h2 : hasPrfx "DEF:" c with
      | true => simp [h, h2, ih]
      | false => simp [h, h2, ih]

/-! ### The claims -/

/-- Claim C1: for every initial constraint stack on the org bone, after the
rig (constraints) stage a synthetic copy-transforms constraint targeting the
control bone sits at stack index 0 of org exactly when `make_control` is
true, and exactly one such constraint is added: org's final stack is the
synthetic entry (when a control exists) followed by the residual of the
original stack, with nothing else added. -/
theorem C1_synthetic_copy_transforms (p : Params) (r : String → String)
    (rp : Option String) (org : String) (arm0 : Armature) (ob : Bone)
    (horg : findBone arm0 org = some ob)
    (hoc : strip_org org ≠ org)
    (hod : make_deformer_name (strip_org org) ≠ org) :
    ∃ res, runRig p r rp org arm0 = some res ∧
      constraintsOf res.arm org =
        (if p.make_control then
          [Constraint.mk "" "COPY_TRANSFORMS" (strip_org org)] else []) ++
          orgResidual p r ob.constraints := by
  cases hmc : p.make_control <;> cases hmd : p.make_deform <;>
    cases htr : truthyName rp <;> cases hmw : p.make_widget <;>
    simp [runRig, generate_bones, parent_bones, configure_bones, rig_bones,
      generate_widgets, orgResidual, relinkTargets,
      hmc, hmd, htr, hmw, horg, hoc, hod,
      Ne.symm hoc, Ne.symm hod,
      findBone_copy_bone, findBone_set_bone_parent, findBone_copy_bone_properties,
      findBone_make_constraint, findBone_relink_bone_constraints,
      findBone_relink_move_constraints, findBone_relink_bone_parent,
      relink_bone_parent_snd, copy_bone_snd, parentOf, constraintsOf,
      hasPrfx_synth_ctrl, hasPrfx_synth_def, filter_def_after_not_ctrl]

/-- Witness for C1: the all-features parameters on a one-bone armature. -/
theorem C1_synthetic_copy_transforms_witness :
    ∃ res, runRig pTT id (some "NewPar") "ORG-Bone" armW = some res ∧
      constraintsOf res.arm "ORG-Bone" =
        (if pTT.make_control then
          [Constraint.mk "" "COPY_TRANSFORMS" (strip_org "ORG-Bone")] else []) ++
          orgResidual pTT id obW.constraints :=
  C1_synthetic_copy_transforms pTT id (some "NewPar") "ORG-Bone" armW obW
    rfl (by decide) (by decide)

/-- Claim C2: when `make_control` is true, every constraint on org whose name
carries the `CTRL:` prefix ends up on the control bone, appended to the
control's initially empty stack in original relative order (targets
rewritten), and no `CTRL:`-prefixed constraint remains on org. -/
theorem C2_ctrl_constraints_moved (p : Params) (r : String → String)
    (rp : Option String) (org : String) (arm0 : Armature) (ob : Bone)
    (hmc : p.make_control = true)
    (horg : findBone arm0 org = some ob)
    (hc0 : findBone arm0 (strip_org org) = none)
    (hoc : strip_org org ≠ org)
    (hod : make_deformer_name (strip_org org) ≠ org)
    (hcd : strip_org org ≠ make_deformer_name (strip_org org)) :
    ∃ res, runRig p r rp org arm0 = some res ∧
      constraintsOf res.arm (strip_org org) =
        (relinkTargets r ob.constraints).filter (hasPrfx "CTRL:") ∧
      ∀ c ∈ constraintsOf res.arm org, hasPrfx "CTRL:" c = false := by
  cases hmd : p.make_deform <;>
    cases htr : truthyName rp <;> cases hmw : p.make_widget <;>
    simp [runRig, generate_bones, parent_bones, configure_bones, rig_bones,
      generate_widgets, orgResidual, relinkTargets,
      hmc, hmd, htr, hmw, horg, hc0, hoc, hod, hcd,
      Ne.symm hoc, Ne.symm hod, Ne.symm hcd,
      findBone_copy_bone, findBone_set_bone_parent, findBone_copy_bone_properties,
      findBone_make_constraint, findBone_relink_bone_constraints,
      findBone_relink_move_constraints, findBone_relink_bone_parent,
      relink_bone_parent_snd, copy_bone_snd, parentOf, constraintsOf,
      hasPrfx_synth_ctrl, hasPrfx_synth_def, filter_def_after_not_ctrl,
      filter_def_and_not_ctrl, List.mem_filter]

/-- Witness for C2: the all-features parameters on a one-bone armature. -/
theorem C2_ctrl_constraints_moved_witness :
    ∃ res, runRig pTT id (some "NewPar") "ORG-Bone" armW = some res ∧
      constraintsOf res.arm (strip_org "ORG-Bone") =
        (relinkTargets id obW.constraints).filter (hasPrfx "CTRL:") ∧
      ∀ c ∈ constraintsOf res.arm "ORG-Bone", hasPrfx "CTRL:" c = false :=
  C2_ctrl_constraints_moved pTT id (some "NewPar") "ORG-Bone" armW obW
    rfl rfl rfl (by decide) (by decide) (by decide)

/-- Claim C3: when `make_deform` is true, every constraint on org whose name
carries the `DEF:` prefix ends up on the deform bone, appended in original
relative order with targets rewritten, no `DEF:`-prefixed constraint remains
on org, and the deform bone's final stack is the same for both values of
`make_control`. -/
theorem C3_def_constraints_moved (p : Params) (r : String → String)
    (rp : Option String) (org : String) (arm0 : Armature) (ob : Bone)
    (hmd : p.make_deform = true)
    (horg : findBone arm0 org = some ob)
    (hd0 : findBone arm0 (make_deformer_name (strip_org org)) = none)
    (hoc : strip_org org ≠ org)
    (hod : make_deformer_name (strip_org org) ≠ org)
    (hcd : strip_org org ≠ make_deformer_name (strip_org org)) :
    ∃ res, runRig p r rp org arm0 = some res ∧
      constraintsOf res.arm (make_deformer_name (strip_org org)) =
        (relinkTargets r ob.constraints).filter (hasPrfx "DEF:") ∧
      ∀ c ∈ constraintsOf res.arm org, hasPrfx "DEF:" c = false := by
  cases hmc : p.make_control <;>
    cases htr : truthyName rp <;> cases hmw : p.make_widget <;>
    simp [runRig, generate_bones, parent_bones, configure_bones, rig_bones,
      generate_widgets, orgResidual, relinkTargets,
      hmc, hmd, htr, hmw, horg, hd0, hoc, hod, hcd,
      Ne.symm hoc, Ne.symm hod, Ne.symm hcd,
      findBone_copy_bone, findBone_set_bone_parent, findBone_copy_bone_properties,
      findBone_make_constraint, findBone_relink_bone_constraints,
      findBone_relink_move_constraints, findBone_relink_bone_parent,
      relink_bone_parent_snd, copy_bone_snd, parentOf, constraintsOf,
      hasPrfx_synth_ctrl, hasPrfx_synth_def, filter_def_after_not_ctrl,
      filter_def_and_not_ctrl, List.mem_filter] <;>
    intro a ha h1 h2 <;> exact h1

/-- Witness for C3: control disabled, deform enabled, on a one-bone
armature. -/
theorem C3_def_constraints_moved_witness :
    ∃ res, runRig pFT id none "ORG-Bone" armW = some res ∧
      constraintsOf res.arm (make_deformer_name (strip_org "ORG-Bone")) =
        (relinkTargets id obW.constraints).filter (hasPrfx "DEF:") ∧
      ∀ c ∈ constraintsOf res.arm "ORG-Bone", hasPrfx "DEF:" c = false :=
  C3_def_constraints_moved pFT id none "ORG-Bone" armW obW
    rfl rfl rfl (by decide) (by decide) (by decide)

/-- Claim C4: a constraint on org whose name carries neither the `CTRL:` nor
the `DEF:` prefix stays on org's stack after the rig stage, for every
combination of the feature flags; only its target is rewritten. -/
theorem C4_unprefixed_constraints_stay (p : Params) (r : String → String)
    (rp : Option String) (org : String) (arm0 : Armature) (ob : Bone)
    (horg : findBone arm0 org = some ob)
    (hoc : strip_org org ≠ org)
    (hod : make_deformer_name (strip_org org) ≠ org) :
    ∃ res, runRig p r rp org arm0 = some res ∧
      ∀ c ∈ ob.constraints, hasPrfx "CTRL:" c = false →
        hasPrfx "DEF:" c = false →
        { c with target := r c.target } ∈ constraintsOf res.arm org := by
  cases hmc : p.make_control <;> cases hmd : p.make_deform <;>
    cases htr : truthyName rp <;> cases hmw : p.make_widget <;>
    simp [runRig, generate_bones, parent_bones, configure_bones, rig_bones,
      generate_widgets, orgResidual, relinkTargets,
      hmc, hmd, htr, hmw, horg, hoc, hod,
      Ne.symm hoc, Ne.symm hod,
      findBone_copy_bone, findBone_set_bone_parent, findBone_copy_bone_properties,
      findBone_make_constraint, findBone_relink_bone_constraints,
      findBone_relink_move_constraints, findBone_relink_bone_parent,
      relink_bone_parent_snd, copy_bone_snd, parentOf, constraintsOf,
      hasPrfx_synth_ctrl, hasPrfx_synth_def] <;>
    intro c hc h1 h2 <;>
    (try simp [List.mem_filter, List.mem_map, hasPrfx_relinkTarget, h1, h2]) <;>
    first
      | exact ⟨c, hc, rfl, rfl, rfl⟩
      | exact Or.inr ⟨c, hc, rfl, rfl, rfl⟩

/-- Witness for C4: the all-features parameters on a one-bone armature. -/
theorem C4_unprefixed_constraints_stay_witness :
    ∃ res, runRig pTT id (some "NewPar") "ORG-Bone" armW = some res ∧
      ∀ c ∈ obW.constraints, hasPrfx "CTRL:" c = false →
        hasPrfx "DEF:" c = false →
        { c with target := id c.target } ∈ constraintsOf res.arm "ORG-Bone" :=
  C4_unprefixed_constraints_stay pTT id (some "NewPar") "ORG-Bone" armW obW
    rfl (by decide) (by decide)

/-- Claim C5: when `make_control` is true and the parent relink step yields a
non-empty parent name, both org and the control bone end up parented to that
name. -/
theorem C5_org_and_ctrl_share_parent (p : Params) (r : String → String)
    (P org : String) (arm0 : Armature) (ob : Bone)
    (hmc : p.make_control = true) (hP : P ≠ "")
    (horg : findBone arm0 org = some ob)
    (hc0 : findBone arm0 (strip_org org) = none)
    (hoc : strip_org org ≠ org)
    (hod : make_deformer_name (strip_org org) ≠ org)
    (hcd : strip_org org ≠ make_deformer_name (strip_org org)) :
    ∃ res, runRig p r (some P) org arm0 = some res ∧
      parentOf res.arm org = some P ∧
      parentOf res.arm (strip_org org) = some P := by
  have htr : truthyName (some P) = true := by simp [truthyName, hP]
  cases hmd : p.make_deform <;> cases hmw : p.make_widget <;>
    simp [runRig, generate_bones, parent_bones, configure_bones, rig_bones,
      generate_widgets, hmc, hmd, htr, hmw, horg, hc0, hoc, hod, hcd,
      Ne.symm hoc, Ne.symm hod, Ne.symm hcd,
      findBone_copy_bone, findBone_set_bone_parent, findBone_copy_bone_properties,
      findBone_make_constraint, findBone_relink_bone_constraints,
      findBone_relink_move_constraints, findBone_relink_bone_parent,
      relink_bone_parent_snd, copy_bone_snd, parentOf, constraintsOf]

/-- Witness for C5: relink resolves to the non-empty name NewPar. -/
theorem C5_org_and_ctrl_share_parent_witness :
    ∃ res, runRig pTT id (some "NewPar") "ORG-Bone" armW = some res ∧
      parentOf res.arm "ORG-Bone" = some "NewPar" ∧
      parentOf res.arm (strip_org "ORG-Bone") = some "NewPar" :=
  C5_org_and_ctrl_share_parent pTT id "NewPar" "ORG-Bone" armW obW
    rfl (by decide) rfl rfl (by decide) (by decide) (by decide)

/-- Claim C6: when `make_deform` is true the deform bone ends up a child of
org with connected parenting disabled, for every value of `make_control` and
every parent-relink outcome. -/
theorem C6_deform_child_of_org (p : Params) (r : String → String)
    (rp : Option String) (org : String) (arm0 : Armature) (ob : Bone)
    (hmd : p.make_deform = true)
    (horg : findBone arm0 org = some ob)
    (hd0 : findBone arm0 (make_deformer_name (strip_org org)) = none)
    (hoc : strip_org org ≠ org)
    (hod : make_deformer_name (strip_org org) ≠ org)
    (hcd : strip_org org ≠ make_deformer_name (strip_org org)) :
    ∃ res, runRig p r rp org arm0 = some res ∧
      ∃ db, findBone res.arm (make_deformer_name (strip_org org)) = some db ∧
        db.parent = some org ∧ db.use_connect = false := by
  cases hmc : p.make_control <;> cases htr : truthyName rp <;>
    cases hmw : p.make_widget <;>
    simp [runRig, generate_bones, parent_bones, configure_bones, rig_bones,
      generate_widgets, hmc, hmd, htr, hmw, horg, hd0, hoc, hod, hcd,
      Ne.symm hoc, Ne.symm hod, Ne.symm hcd,
      findBone_copy_bone, findBone_set_bone_parent, findBone_copy_bone_properties,
      findBone_make_constraint, findBone_relink_bone_constraints,
      findBone_relink_move_constraints, findBone_relink_bone_parent,
      relink_bone_parent_snd, copy_bone_snd, parentOf, constraintsOf]

/-- Witness for C6: control disabled, deform enabled, relink empty. -/
theorem C6_deform_child_of_org_witness :
    ∃ res, runRig pFT id none "ORG-Bone" armW = some res ∧
      ∃ db, findBone res.arm (make_deformer_name (strip_org "ORG-Bone")) = some db ∧
        db.parent = some "ORG-Bone" ∧ db.use_connect = false :=
  C6_deform_child_of_org pFT id none "ORG-Bone" armW obW
    rfl rfl rfl (by decide) (by decide) (by decide)

/-- Claim C7: the bone-generation stage appends exactly the set of bones the
flags call for — a control duplicate of org named by the stripped org name
with parent inheritance and no bendy-bone segmentation, and a deform
duplicate named by the deformer-naming transform with bendy-bone segmentation
— and registers exactly those names as the `ctrl` / `deform` roles. -/
theorem C7_generate_bones_exact (p : Params) (org : String) (arm0 : Armature)
    (ob : Bone)
    (horg : findBone arm0 org = some ob)
    (hoc : strip_org org ≠ org) :
    (generate_bones p org arm0).1 =
      (arm0 ++
        (if p.make_control then
          [⟨strip_org org, ob.parent, false, false, ob.geom, "", []⟩] else [])) ++
        (if p.make_deform then
          [⟨make_deformer_name (strip_org org), none, false, true, ob.geom, "", []⟩]
         else []) ∧
    (generate_bones p org arm0).2 =
      ⟨org, if p.make_control then some (strip_org org) else none,
            if p.make_deform then some (make_deformer_name (strip_org org)) else none⟩ := by
  cases hmc : p.make_control <;> cases hmd : p.make_deform <;>
    simp [generate_bones, copy_bone, hmc, hmd, parentOf, geomOf, horg,
      findBone_append, findBone_cons, findBone_nil, hoc, Ne.symm hoc]

/-- Witness for C7: the all-features parameters on a one-bone armature. -/
theorem C7_generate_bones_exact_witness :
    (generate_bones pTT "ORG-Bone" armW).1 =
      (armW ++
        (if pTT.make_control then
          [⟨strip_org "ORG-Bone", obW.parent, false, false, obW.geom, "", []⟩]
         else [])) ++
        (if pTT.make_deform then
          [⟨make_deformer_name (strip_org "ORG-Bone"), none, false, true,
            obW.geom, "", []⟩]
         else []) ∧
    (generate_bones pTT "ORG-Bone" armW).2 =
      ⟨"ORG-Bone",
       if pTT.make_control then some (strip_org "ORG-Bone") else none,
       if pTT.make_deform then some (make_deformer_name (strip_org "ORG-Bone"))
       else none⟩ :=
  C7_generate_bones_exact pTT "ORG-Bone" armW obW rfl (by decide)

/-- Claim C8: the widget stage issues a widget request exactly when
`make_control` is true — a registered catalog widget keyed by the widget-type
string (with "circle" substituted for the empty string) when `make_widget` is
true, and the default bone widget otherwise; with no control there is no
widget request at all. -/
theorem C8_widget_requests (p : Params) (r : String → String)
    (rp : Option String) (org : String) (arm0 : Armature) :
    ∃ res, runRig p r rp org arm0 = some res ∧
      (p.make_control = false → res.widget = none) ∧
      (p.make_control = true → p.make_widget = true →
        res.widget = some (WidgetCall.registered (strip_org org)
          (if p.super_copy_widget_type = "" then "circle"
           else p.super_copy_widget_type))) ∧
      (p.make_control = true → p.make_widget = false →
        res.widget = some (WidgetCall.boneDefault (strip_org org))) := by
  cases hmc : p.make_control <;> cases hmd : p.make_deform <;>
    cases htr : truthyName rp <;> cases hmw : p.make_widget <;>
    simp [runRig, generate_bones, parent_bones, configure_bones, rig_bones,
      generate_widgets, hmc, hmd, htr, hmw,
      relink_bone_parent_snd, copy_bone_snd]

/-- Claim C9: when `make_control` is true and the parent relink step yields
an empty or missing result, the control bone keeps the parent it inherited
from org at creation time, while org itself is left a root. -/
theorem C9_ctrl_keeps_inherited_parent (p : Params) (r : String → String)
    (rp : Option String) (org : String) (arm0 : Armature) (ob : Bone)
    (hmc : p.make_control = true)
    (htr : truthyName rp = false)
    (horg : findBone arm0 org = some ob)
    (hc0 : findBone arm0 (strip_org org) = none)
    (hoc : strip_org org ≠ org)
    (hod : make_deformer_name (strip_org org) ≠ org)
    (hcd : strip_org org ≠ make_deformer_name (strip_org org)) :
    ∃ res, runRig p r rp org arm0 = some res ∧
      parentOf res.arm (strip_org org) = ob.parent ∧
      parentOf res.arm org = none := by
  cases hmd : p.make_deform <;> cases hmw : p.make_widget <;>
    simp [runRig, generate_bones, parent_bones, configure_bones, rig_bones,
      generate_widgets, hmc, hmd, htr, hmw, horg, hc0, hoc, hod, hcd,
      Ne.symm hoc, Ne.symm hod, Ne.symm hcd,
      findBone_copy_bone, findBone_set_bone_parent, findBone_copy_bone_properties,
      findBone_make_constraint, findBone_relink_bone_constraints,
      findBone_relink_move_constraints, findBone_relink_bone_parent,
      relink_bone_parent_snd, copy_bone_snd, parentOf, constraintsOf]

/-- Witness for C9: relink yields nothing, so the control keeps org's
original parent Root while org becomes a root. -/
theorem C9_ctrl_keeps_inherited_parent_witness :
    ∃ res, runRig pTT id none "ORG-Bone" armW = some res ∧
      parentOf res.arm (strip_org "ORG-Bone") = obW.parent ∧
      parentOf res.arm "ORG-Bone" = none :=
  C9_ctrl_keeps_inherited_parent pTT id none "ORG-Bone" armW obW
    rfl rfl rfl rfl (by decide) (by decide) (by decide)

/-- Claim C10: every pipeline stage reads the `ctrl` role only under a
`make_control` guard and the `deform` role only under a `make_deform` guard,
so a full run never dereferences an unregistered bone role: in the
`Option`-monadic embedding, where reading an unregistered role aborts the
run, the pipeline always succeeds. -/
theorem C10_no_unregistered_role_read (p : Params) (r : String → String)
    (rp : Option String) (org : String) (arm0 : Armature) :
    (runRig p r rp org arm0).isSome = true := by
  cases hmc : p.make_control <;> cases hmd : p.make_deform <;>
    cases htr : truthyName rp <;> cases hmw : p.make_widget <;>
    simp [runRig, generate_bones, parent_bones, configure_bones, rig_bones,
      generate_widgets, hmc, hmd, htr, hmw,
      relink_bone_parent_snd, copy_bone_snd]

end SuperCopy
